import Mathlib

/-!
Verification development for the `gitauto` workflow engine (src/gitauto.py).

The program is embedded shallowly: external effects are modelled by an explicit
`WorldState` carrying
  * an oracle list of subprocess outcomes (`LaunchResult`), consumed in order by
    `runCommandS` (one entry per `subprocess.run` call),
  * the list of user input lines, consumed in order by `popInput`
    (one entry per `input()` call),
  * an oracle list of AI-backend outcomes, consumed by `popAI`
    (one entry per network call inside `generate_commit_message`),
  * a `trace` recording every command (argv list) handed to the runner, and
  * a `log` of the messages printed by the program, as a tagged inductive
    (`Msg`) with one constructor per print site.

Python string operations (`strip`, `lower`, `replace`, `split`, `in`,
`startswith`) are re-implemented on `List Char` so that everything reduces in
the kernel.
-/

namespace GitAuto

/-! ### Python-style string primitives -/

/-- `list_starts pat l` : does `l` begin with `pat`? -/
def list_starts : List Char → List Char → Bool
  | [], _ => true
  | _ :: _, [] => false
  | p :: ps, x :: xs => p = x && list_starts ps xs

/-- Python `pat in s` on char lists: `pat` occurs contiguously in the list. -/
def list_contains_sub (pat : List Char) : List Char → Bool
  | [] => list_starts pat []
  | x :: xs => list_starts pat (x :: xs) || list_contains_sub pat xs

/-- Python `str.strip()`: drop whitespace from both ends. -/
def strip (s : String) : String :=
  String.mk (((s.data.dropWhile Char.isWhitespace).reverse.dropWhile
    Char.isWhitespace).reverse)

/-- Python `str.lower()` (ASCII letters, which is all the program compares). -/
def lower (s : String) : String :=
  String.mk (s.data.map Char.toLower)

/-- Python `pat in s` (substring test). -/
def contains_sub (s pat : String) : Bool :=
  list_contains_sub pat.data s.data

/-- Python `s.startswith(pat)`. -/
def starts_with (s pat : String) : Bool :=
  list_starts pat.data s.data

/-- Fuel-driven engine of `replace_all`; the fuel starts at the list length,
which suffices because every step consumes at least one character when the
pattern is non-empty. -/
def replace_go (pat repl : List Char) : Nat → List Char → List Char
  | 0, l => l
  | Nat.succ fuel, l =>
    match l with
    | [] => []
    | c :: cs =>
      if pat ≠ [] ∧ list_starts pat l then
        repl ++ replace_go pat repl fuel (l.drop pat.length)
      else c :: replace_go pat repl fuel cs

/-- Python `s.replace(pat, repl)` (leftmost, non-overlapping; the program only
uses non-empty patterns, so the empty-pattern case is irrelevant). -/
def replace_all (s pat repl : String) : String :=
  String.mk (replace_go pat.data repl.data s.data.length s.data)

/-- Split a char list at every character satisfying `p` (keeping empty pieces,
like Python `str.split(sep)` with an explicit separator). -/
def split_pred (p : Char → Bool) : List Char → List (List Char)
  | [] => [[]]
  | c :: cs =>
    if p c then [] :: split_pred p cs
    else
      match split_pred p cs with
      | [] => [[c]]
      | h :: t => (c :: h) :: t

/-- Python `s.split("\n")`. -/
def split_lines (s : String) : List String :=
  (split_pred (fun c => c = '\n') s.data).map String.mk

/-- Python `s.split()` (split on whitespace, dropping empty pieces). -/
def split_ws (s : String) : List String :=
  ((split_pred Char.isWhitespace s.data).filter (fun l => l ≠ [])).map String.mk

/-- Python `dict.fromkeys` de-duplication: keep the first occurrence of each
element, preserving order.  `seen` accumulates the elements already kept. -/
def dedup_aux (seen : List String) : List String → List String
  | [] => []
  | x :: xs => if x ∈ seen then dedup_aux seen xs else x :: dedup_aux (x :: seen) xs

/-- `list(dict.fromkeys(l))`. -/
def dedup_first (l : List String) : List String :=
  dedup_aux [] l

/-- Python `a or b` on strings: `a` if non-empty, else `b`. -/
def por (a b : String) : String :=
  if a = "" then b else a

/-! ### Process runner (`run_command`, lines 103-114) -/

/-- Outcome of one `subprocess.run` call: either the child ran and exited with
a code (and produced output), or launching it raised an exception whose text is
`descr`. -/
inductive LaunchResult where
  | ok (exitCode : Int) (stdout : String) (stderr : String)
  | exn (descr : String)
deriving Repr, DecidableEq

/-- `GitAuto.run_command` (lines 103-114): wraps one subprocess outcome into
`(success, stdout, stderr)`.  With capture on, outputs are `.strip()`ped; with
capture off the strings are constantly empty; an exception is converted into
`(False, "", str(e))`. -/
def run_command (capture : Bool) (r : LaunchResult) : Bool × String × String :=
  match r with
  | .ok code out err =>
    if capture then ((code == 0 : Bool), strip out, strip err)
    else ((code == 0 : Bool), "", "")
  | .exn e => (false, "", e)

/-! ### Configuration and world state -/

/-- The persisted configuration (`config.json`): provider name and API key,
each possibly absent (`None`) or present (possibly the empty string, which
Python treats as falsy). -/
structure Config where
  api_key : Option String
  provider : Option String
deriving Repr, DecidableEq

/-- Python truthiness of an optional string. -/
def truthy : Option String → Bool
  | none => false
  | some s => if s = "" then false else true

/-- `bool(self.get_api_key() and self.get_provider())` (line 421). -/
def use_ai (cfg : Config) : Bool :=
  truthy cfg.api_key && truthy cfg.provider

/-- One constructor per print site of the program (payload = the interpolated
data).  Only the identity of the message matters for the claims, not the ANSI
formatting. -/
inductive Msg where
  | attemptingPush (branch : String)
  | pushed (branch : String)
  | pushRejected
  | nonInteractiveRebase
  | autoRebaseFailed (err : String)
  | pushedAfterRebase (branch : String)
  | pushStillFailed (err : String)
  | divergenceMenu
  | runningRebase
  | rebaseOkPushing
  | pushFailedAfterRebase (err : String)
  | rebaseFailed (err : String)
  | conflictedStateWarning
  | runningMerge
  | mergedAndPushed
  | pushAfterMergeFailed (err : String)
  | mergeFailed (err : String)
  | forcePushed
  | forcePushFailed (err : String)
  | forcePushCancelled
  | abortedResolution
  | pushFailed (stderr : String)
  | noChanges
  | changesDetected (status : String)
  | failedAdd (err : String)
  | added (files : String)
  | generating (provider : String)
  | aiGenFailed
  | aiSuggestion (msg : String)
  | emptyCommitMessage
  | commitFailed (err : String)
  | committed (msg : String)
  | undoDone
  | undoFailed (err : String)
  | noProviderConfigured
  | usingProvider (p : String)
  | notARepo
  | remoteInfo (url : String)
  | branchInfo (b : String)
  | abortedHeader
  | abortedAfterUndo
  | unexpectedStatus
  | availableBranches (bs : List String)
  | switched (b : String)
  | createdAndSwitched (b : String)
  | checkoutFailed (err : String)
  | upstreamPushed
  | upstreamFailed (err : String)
  | skippingPush
  | allDone
deriving Repr, DecidableEq

/-- The explicit state threaded through the embedded program. -/
structure WorldState where
  results : List LaunchResult
  inputs : List String
  aiResults : List (Option String)
  trace : List (List String)
  log : List Msg
deriving Repr, DecidableEq

/-- Print one message (any of the `print_*` helpers, lines 83-98). -/
def emit (m : Msg) (s : WorldState) : WorldState :=
  { s with log := s.log ++ [m] }

/-- One `input()` call.  The claims always supply enough input lines; an
exhausted list yields `""`. -/
def popInput (s : WorldState) : String × WorldState :=
  match s.inputs with
  | [] => ("", s)
  | i :: rest => (i, { s with inputs := rest })

/-- One AI-backend network call; `none` models an exception or an empty
response.  An exhausted oracle also yields `none`. -/
def popAI (s : WorldState) : Option String × WorldState :=
  match s.aiResults with
  | [] => (none, s)
  | r :: rest => (r, { s with aiResults := rest })

/-- Stateful `self.run_command(cmd, capture)`: consumes the next subprocess
outcome from the oracle and records the command in the trace. -/
def runCommandS (cmd : List String) (capture : Bool) (s : WorldState) :
    (Bool × String × String) × WorldState :=
  match s.results with
  | [] => (run_command capture (.exn ""), { s with trace := s.trace ++ [cmd] })
  | r :: rest =>
      (run_command capture r, { s with results := rest, trace := s.trace ++ [cmd] })

/-! ### Repository inspector (lines 119-152) -/

/-- `get_git_status` (lines 123-125). -/
def get_git_status (s : WorldState) : String × WorldState :=
  match runCommandS ["git", "status", "--short"] true s with
  | ((ok, out, _), s1) => (if ok then out else "", s1)

/-- `get_diff` (lines 127-132): prefer the staged diff, fall back to the
unstaged one. -/
def get_diff (s : WorldState) : String × WorldState :=
  match runCommandS ["git", "diff", "--cached"] true s with
  | ((ok, out, _), s1) =>
    if ok = false ∨ out = "" then
      match runCommandS ["git", "diff"] true s1 with
      | ((ok2, out2, _), s2) => (if ok2 then out2 else "", s2)
    else (out, s1)

/-- `get_current_branch` (lines 134-136). -/
def get_current_branch (s : WorldState) : String × WorldState :=
  match runCommandS ["git", "branch", "--show-current"] true s with
  | ((ok, out, _), s1) => (if ok then out else "main", s1)

/-- One loop body of `get_branches` (line 144): strip the line, remove the
current-branch marker and the remote prefix. -/
def parse_branch_line (line : String) : String :=
  replace_all (replace_all (strip line) "* " "") "remotes/origin/" ""

/-- The parsing part of `get_branches` (lines 142-148): keep the cleaned,
non-empty, non-`HEAD` entries and de-duplicate preserving first-seen order. -/
def parse_branches (output : String) : List String :=
  dedup_first ((split_lines output).filterMap (fun line =>
    let branch := parse_branch_line line
    if branch ≠ "" ∧ starts_with branch "HEAD" = false then some branch else none))

/-- `get_branches` (lines 138-148). -/
def get_branches (s : WorldState) : List String × WorldState :=
  match runCommandS ["git", "branch", "-a"] true s with
  | ((ok, out, _), s1) => (if ok then parse_branches out else [], s1)

/-- `get_remote_url` (lines 150-152). -/
def get_remote_url (s : WorldState) : String × WorldState :=
  match runCommandS ["git", "remote", "get-url", "origin"] true s with
  | ((ok, out, _), s1) => (if ok then out else "No remote configured", s1)

/-! ### Message provider (`generate_commit_message`, lines 191-242) -/

/-- Providers with a backend integration (lines 210-239); any other provider
name falls through the `try` body and the function returns `None`. -/
def known_provider (p : String) : Bool :=
  if p = "openai" ∨ p = "anthropic" ∨ p = "gemini" then true else false

/-- The prompt sent to the backend (lines 203-207): fixed preamble plus the
diff truncated to its first 3000 characters. -/
def build_prompt (diff : String) : String :=
  String.mk
    (("Generate a very short (one-line, imperative tense, <=50 chars) " ++
      "git commit message summarizing the changes below:\n\n").data ++
      diff.data.take 3000)

/-- `generate_commit_message` (lines 191-242).  A missing/empty key or provider
yields `none` immediately; a known provider performs one backend call whose
outcome comes from the oracle (`none` = exception or empty response, collapsed
by the `try/except`); an unknown provider skips every branch of the `try` and
returns `None`.  `install_ai_library` (lines 157-186) touches only the Python
environment, which is outside this model (spec §1 treats installation as an
external collaborator), so it contributes no effect here. -/
def generate_commit_message (cfg : Config) (diff : String) (s : WorldState) :
    Option String × WorldState :=
  if truthy cfg.api_key = false ∨ truthy cfg.provider = false then
    (none, emit .noProviderConfigured s)
  else
    let provider := cfg.provider.getD ""
    let s := emit (.usingProvider provider) s
    let _ := build_prompt diff
    if known_provider provider then
      -- one backend call; a produced text is `.strip()`ped, a failure is `none`
      let r := popAI s
      (r.1.map strip, r.2)
    else (none, s)

/-! ### Push resolver (`push_with_hybrid_resolver`, lines 263-384) -/

/-- Rejection detection (line 280): any of the three markers as a substring of
the lower-cased stderr. -/
def is_rejection (stderr : String) : Bool :=
  contains_sub (lower stderr) "fetch first" ||
    contains_sub (lower stderr) "non-fast-forward" ||
    contains_sub (lower stderr) "rejected"

/-- The merge-then-push strategy; the source inlines this code identically at
lines 326-337 (nested fallback) and lines 352-363 (direct choice 2). -/
def merge_then_push (branch : String) (s : WorldState) : Bool × WorldState :=
  match runCommandS ["git", "pull", "--no-rebase", "origin", branch] true s with
  | ((okm, outm, errm), s) =>
    if okm then
      match runCommandS ["git", "push", "origin", branch] true s with
      | ((okp, _, errp), s) =>
        if okp then (true, emit .mergedAndPushed s)
        else (false, emit (.pushAfterMergeFailed errp) s)
    else (false, emit (.mergeFailed (por errm outm)) s)

/-- The body of the rejection branch (lines 281-380), entered after the
"Push was rejected" warning. -/
def resolve_divergence (inter : Bool) (branch : String) (s : WorldState) :
    Bool × WorldState :=
  if inter = false then
    -- lines 283-296: automatic rebase then one re-push, both terminal
    let s := emit .nonInteractiveRebase s
    match runCommandS ["git", "pull", "--rebase", "origin", branch] true s with
    | ((okp, outp, errp), s) =>
      if okp = false then (false, emit (.autoRebaseFailed (por errp outp)) s)
      else
        match runCommandS ["git", "push", "origin", branch] true s with
        | ((ok2, _, err2), s) =>
          if ok2 then (true, emit (.pushedAfterRebase branch) s)
          else (false, emit (.pushStillFailed err2) s)
  else
    -- lines 298-380: interactive menu
    let s := emit .divergenceMenu s
    match popInput s with
    | (choiceRaw, s) =>
      let choice := if strip choiceRaw = "" then "1" else strip choiceRaw
      if choice = "1" then
        let s := emit .runningRebase s
        match runCommandS ["git", "pull", "--rebase", "origin", branch] true s with
        | ((okp, outp, errp), s) =>
          if okp then
            let s := emit .rebaseOkPushing s
            match runCommandS ["git", "push", "origin", branch] true s with
            | ((ok2, _, err2), s) =>
              if ok2 then (true, emit (.pushedAfterRebase branch) s)
              else (false, emit (.pushFailedAfterRebase err2) s)
          else
            let s := emit (.rebaseFailed (por errp outp)) s
            let s := emit .conflictedStateWarning s
            match popInput s with
            | (fbRaw, s) =>
              let fb := if strip fbRaw = "" then "4" else strip fbRaw
              if fb = "2" then merge_then_push branch s
              else if fb = "3" then
                -- lines 338-345: the nested fallback force push runs with no
                -- typed confirmation
                match runCommandS ["git", "push", "--force", "origin", branch]
                    true s with
                | ((okf, _, errf), s) =>
                  if okf then (true, emit .forcePushed s)
                  else (false, emit (.forcePushFailed errf) s)
              else (false, emit .abortedResolution s)
      else if choice = "2" then
        let s := emit .runningMerge s
        merge_then_push branch s
      else if choice = "3" then
        -- lines 365-377: direct force push guarded by the typed token
        match popInput s with
        | (confirmRaw, s) =>
          if strip confirmRaw = "FORCE" then
            match runCommandS ["git", "push", "--force", "origin", branch]
                true s with
            | ((okf, _, errf), s) =>
              if okf then (true, emit .forcePushed s)
              else (false, emit (.forcePushFailed errf) s)
          else (false, emit .forcePushCancelled s)
      else (false, emit .abortedResolution s)

/-- `push_with_hybrid_resolver` (lines 263-384). -/
def push_with_hybrid_resolver (inter : Bool) (branch : String)
    (s : WorldState) : Bool × WorldState :=
  let s := emit (.attemptingPush branch) s
  match runCommandS ["git", "push", "origin", branch] true s with
  | ((ok, _, stderr), s) =>
    if ok then (true, emit (.pushed branch) s)
    else if is_rejection stderr then
      resolve_divergence inter branch (emit .pushRejected s)
    else (false, emit (.pushFailed stderr) s)

/-! ### Commit flow (`commit_flow`, lines 390-486) -/

/-- The staging part of `commit_flow` (lines 392-417): show status, optionally
confirm on a clean tree, choose the files, run `git add`.  `.error` is an early
`return "abort"`, `.ok` means control reaches message acquisition. -/
def stage_add (inter : Bool) (s : WorldState) : Except WorldState WorldState :=
  match (if inter then popInput s else (".", s)) with
  | (raw, s) =>
    let add_files := if strip raw = "" then "." else strip raw
    let add_cmd :=
      if add_files = "." then ["git", "add", "."]
      else ["git", "add"] ++ split_ws add_files
    match runCommandS add_cmd true s with
    | ((ok, _, err), s) =>
      if ok then .ok (emit (.added add_files) s)
      else .error (emit (.failedAdd err) s)

/-- Lines 392-402: status display and the clean-tree confirmation, then
`stage_add`. -/
def stage_phase (inter : Bool) (s : WorldState) : Except WorldState WorldState :=
  match get_git_status s with
  | (status, s0) =>
    if status = "" then
      let s1 := emit .noChanges s0
      if inter then
        match popInput s1 with
        | (cont, s2) =>
          if lower (strip cont) = "y" then stage_add inter s2
          else .error s2
      else stage_add inter s1
    else stage_add inter (emit (.changesDetected status) s0)

/-- The `while True` regeneration loop (lines 428-448), with explicit fuel (a
run that never leaves the loop is outside the model; every claim supplies
enough input to exit).  Returns the value of the Python variable
`commit_message` on loop exit. -/
def regen_loop (cfg : Config) (diff : String) :
    Nat → WorldState → Option String × WorldState
  | 0, s => (none, s)
  | Nat.succ fuel, s =>
    let s := emit (.generating (cfg.provider.getD "")) s
    match generate_commit_message cfg diff s with
    | (none, s) =>
      let s := emit .aiGenFailed s
      match popInput s with
      | (m, s) => (some (strip m), s)
    | (some msg, s) =>
      let s := emit (.aiSuggestion msg) s
      match popInput s with
      | (confirmRaw, s) =>
        let confirm := lower (strip confirmRaw)
        if confirm = "y" then (some msg, s)
        else if confirm = "r" then regen_loop cfg diff fuel s
        else if confirm = "m" then
          match popInput s with
          | (m, s) => (some (strip m), s)
        else regen_loop cfg diff fuel s

/-- Lines 450-451: fall back to a manual prompt while the message is falsy. -/
def manual_if_empty (cm : Option String) (s : WorldState) :
    Option String × WorldState :=
  if truthy cm then (cm, s)
  else
    match popInput s with
    | (m, s) => (some (strip m), s)

/-- Message acquisition (lines 419-457). -/
def acquire_message (cfg : Config) (inter : Bool) (fuel : Nat)
    (s : WorldState) : Option String × WorldState :=
  if inter then
    match popInput s with
    | (aiRaw, s) =>
      let ai_choice := lower (strip aiRaw)
      if ai_choice = "y" ∧ use_ai cfg = true then
        match get_diff s with
        | (diff, s) =>
          if diff = "" then manual_if_empty none s
          else
            let rl := regen_loop cfg diff fuel s
            manual_if_empty rl.1 rl.2
      else manual_if_empty none s
  else
    match
      (if use_ai cfg then
        match get_diff s with
        | (diff, s) => generate_commit_message cfg diff s
      else (none, s)) with
    | (cm, s) => (if truthy cm then cm else some "Auto commit", s)

/-- The commit and post-commit part of `commit_flow` (lines 463-486): run the
commit, then (interactively) offer undo and redo. -/
def commit_and_after (inter : Bool) (msg : String) (s : WorldState) :
    String × WorldState :=
  match runCommandS ["git", "commit", "-m", msg] true s with
  | ((ok, _, err), s) =>
    if ok = false then ("abort", emit (.commitFailed err) s)
    else
      let s := emit (.committed msg) s
      if inter then
        match popInput s with
        | (undoRaw, s) =>
          if lower (strip undoRaw) = "y" then
            match runCommandS ["git", "reset", "--soft", "HEAD~1"] true s with
            | ((ok2, _, err2), s) =>
              if ok2 then
                let s := emit .undoDone s
                match popInput s with
                | (redoRaw, s) =>
                  if lower (strip redoRaw) = "y" then ("restart", s)
                  else ("abort", s)
              else ("abort", emit (.undoFailed err2) s)
          else ("continue", s)
      else ("continue", s)

/-- `commit_flow` (lines 390-486): staging, acquisition, the empty-message
check (lines 459-461), then commit and post-commit handling. -/
def commit_flow (cfg : Config) (inter : Bool) (fuel : Nat) (s : WorldState) :
    String × WorldState :=
  match stage_phase inter s with
  | .error s => ("abort", s)
  | .ok s =>
    match acquire_message cfg inter fuel s with
    | (cm, s) =>
      if truthy cm then commit_and_after inter (cm.getD "") s
      else ("abort", emit .emptyCommitMessage s)

/-! ### Orchestrator (`run`, lines 491-573) -/

/-- The `while True` loop over `commit_flow` (lines 503-519), with fuel for the
`restart` iterations. -/
def commit_loop (cfg : Config) (inter : Bool) (fuel : Nat) :
    Nat → WorldState → String × WorldState
  | 0, s => ("abort", s)
  | Nat.succ n, s =>
    match commit_flow cfg inter fuel s with
    | (st, s) => if st = "restart" then commit_loop cfg inter fuel n s else (st, s)

/-- The orchestrator-level push fallback (lines 552-571), reached when the
resolver reported failure: offer set-upstream, or a force push guarded by the
typed `FORCE` token, or skip. -/
def run_push_fallback (branch : String) (s : WorldState) : WorldState :=
  match popInput s with
  | (extraRaw, s) =>
    let extra := lower (strip extraRaw)
    if extra = "y" then
      match runCommandS ["git", "push", "--set-upstream", "origin", branch]
          false s with
      | ((ok, _, err), s) =>
        if ok then emit .upstreamPushed s else emit (.upstreamFailed err) s
    else if extra = "f" then
      match popInput s with
      | (confirmRaw, s) =>
        if strip confirmRaw = "FORCE" then
          match runCommandS ["git", "push", "--force", "origin", branch]
              false s with
          | ((ok, _, err), s) =>
            if ok then emit .forcePushed s else emit (.forcePushFailed err) s
        else emit .forcePushCancelled s
    else emit .skippingPush s

/-- Branch display/switch and the push step (lines 521-571). -/
def branch_and_push (inter : Bool) (current0 : String) (s : WorldState) :
    WorldState :=
  match get_branches s with
  | (branches, s) =>
    let s :=
      if branches = [] then s else emit (.availableBranches (branches.take 50)) s
    match
      (if inter then
        match popInput s with
        | (switchRaw, s) =>
          let sw := strip switchRaw
          if sw = "" then (current0, s)
          else
            match runCommandS ["git", "checkout", sw] true s with
            | ((ok, _, _), s) =>
              if ok then (sw, emit (.switched sw) s)
              else
                match popInput s with
                | (createRaw, s) =>
                  if lower (strip createRaw) = "y" then
                    match runCommandS ["git", "checkout", "-b", sw] true s with
                    | ((ok2, _, err2), s) =>
                      if ok2 then (sw, emit (.createdAndSwitched sw) s)
                      else (current0, emit (.checkoutFailed err2) s)
                  else (current0, s)
      else (current0, s)) with
    | (current, s) =>
      if inter then
        match popInput s with
        | (pushRaw, s) =>
          if lower (strip pushRaw) = "y" then
            match push_with_hybrid_resolver true current s with
            | (pushed, s) => if pushed then s else run_push_fallback current s
          else s
      else s

/-- `run` (lines 491-573): repository check, preamble queries, the commit-flow
loop, then branch/push on `continue` and immediate termination on `abort`. -/
def run_main (cfg : Config) (inter : Bool) (loopFuel regenFuel : Nat)
    (s : WorldState) : WorldState :=
  match runCommandS ["git", "rev-parse", "--git-dir"] true s with
  | ((ok, _, _), s) =>
    if ok = false then emit .notARepo s
    else
      match get_remote_url s with
      | (url, s) =>
        let s := emit (.remoteInfo url) s
        match get_current_branch s with
        | (cb, s) =>
          let s := emit (.branchInfo cb) s
          match commit_loop cfg inter regenFuel loopFuel s with
          | (st, s) =>
            if st = "continue" then emit .allDone (branch_and_push inter cb s)
            else if st = "abort" then
              emit .abortedAfterUndo (emit .abortedHeader s)
            else emit .unexpectedStatus s

/-! ### General lemmas about the helper functions -/

theorem dedup_aux_sublist (l : List String) :
    ∀ seen, (dedup_aux seen l).Sublist l := by
  induction l with
  | nil => intro seen; simp [dedup_aux]
  | cons x xs ih =>
    intro seen
    simp only [dedup_aux]
    split
    · exact (ih seen).cons x
    · exact (ih (x :: seen)).cons₂ x

theorem mem_dedup_aux (l : List String) :
    ∀ seen x, x ∈ dedup_aux seen l ↔ (x ∈ l ∧ x ∉ seen) := by
  induction l with
  | nil => intro seen x; simp [dedup_aux]
  | cons a as ih =>
    intro seen x
    simp only [dedup_aux]
    by_cases ha : a ∈ seen
    · rw [if_pos ha, ih]
      constructor
      · rintro ⟨hx, hns⟩
        exact ⟨List.mem_cons_of_mem a hx, hns⟩
      · rintro ⟨hx, hns⟩
        rcases List.mem_cons.mp hx with rfl | hx
        · exact absurd ha hns
        · exact ⟨hx, hns⟩
    · rw [if_neg ha]
      simp only [List.mem_cons, ih, List.mem_cons]
      constructor
      · rintro (rfl | ⟨hx, hns⟩)
        · exact ⟨Or.inl rfl, ha⟩
        · exact ⟨Or.inr hx, fun h => hns (Or.inr h)⟩
      · rintro ⟨rfl | hx, hns⟩
        · exact Or.inl rfl
        · by_cases hxa : x = a
          · exact Or.inl hxa
          · exact Or.inr ⟨hx, fun h => by
              rcases h with h | h
              · exact hxa h
              · exact hns h⟩

theorem dedup_aux_nodup (l : List String) :
    ∀ seen, (dedup_aux seen l).Nodup := by
  induction l with
  | nil => intro seen; simp [dedup_aux]
  | cons a as ih =>
    intro seen
    simp only [dedup_aux]
    split
    · exact ih seen
    · refine List.Nodup.cons ?_ (ih (a :: seen))
      intro hmem
      exact ((mem_dedup_aux as (a :: seen) a).1 hmem).2 (List.mem_cons_self a seen)

theorem dedup_first_nodup (l : List String) : (dedup_first l).Nodup :=
  dedup_aux_nodup l []

theorem dedup_first_sublist (l : List String) : (dedup_first l).Sublist l :=
  dedup_aux_sublist l []

theorem mem_dedup_first (l : List String) (x : String) :
    x ∈ dedup_first l ↔ x ∈ l := by
  rw [dedup_first, mem_dedup_aux]
  simp

theorem filterMap_guard_eq {α β : Type} (f : α → β) (p : β → Prop)
    [DecidablePred p] (l : List α) :
    (l.filterMap fun a => if p (f a) then some (f a) else none) =
      (l.map f).filter (fun b => decide (p b)) := by
  induction l with
  | nil => rfl
  | cons a l ih =>
    by_cases hp : p (f a)
    · simp [List.filterMap_cons, List.filter_cons, hp, ih]
    · simp [List.filterMap_cons, List.filter_cons, hp, ih]

theorem runCommandS_eq (cmd : List String) (c : Bool) (s : WorldState) :
    runCommandS cmd c s =
      (run_command c (s.results.headD (.exn "")),
        { s with results := s.results.tail, trace := s.trace ++ [cmd] }) := by
  cases h : s.results <;> simp [runCommandS, h]

theorem popInput_eq (s : WorldState) :
    popInput s = (s.inputs.headD "", { s with inputs := s.inputs.tail }) := by
  obtain ⟨res, inp, ai, tr, lg⟩ := s
  cases inp <;> simp [popInput]

theorem popAI_eq (s : WorldState) :
    popAI s = (s.aiResults.headD none, { s with aiResults := s.aiResults.tail }) := by
  obtain ⟨res, inp, ai, tr, lg⟩ := s
  cases ai <;> simp [popAI]

/-- The divergence-resolution branch never prints the "Push was rejected"
warning itself: that message is emitted exactly once, at the entry of the
rejection branch of `push_with_hybrid_resolver`. -/
theorem resolve_divergence_pushRejected (inter : Bool) (branch : String)
    (s : WorldState) :
    (Msg.pushRejected ∈ (resolve_divergence inter branch s).2.log ↔
      Msg.pushRejected ∈ s.log) := by
  simp only [resolve_divergence, merge_then_push, runCommandS_eq, popInput_eq,
    emit]
  repeat' split
  all_goals simp

/-- Whatever the configuration, a backend call whose outcome is a failure
(oracle head `none`) makes the generator return `none`. -/
theorem generate_none_of_head (cfg : Config) (diff : String) (s : WorldState)
    (h : s.aiResults.headD none = none) :
    (generate_commit_message cfg diff s).1 = none := by
  by_cases h1 : truthy cfg.api_key = false ∨ truthy cfg.provider = false
  · simp [generate_commit_message, h1]
  · by_cases h2 : known_provider (cfg.provider.getD "") = true
    · rcases hai : s.aiResults with _ | ⟨a, t⟩
      · simp [generate_commit_message, h1, h2, popAI, emit, hai]
      · have ha : a = none := by rw [hai] at h; exact h
        subst ha
        simp [generate_commit_message, h1, h2, popAI, emit, hai]
    · simp [generate_commit_message, h1, h2]

/-- The state carried by either verdict of a staging attempt. -/
def exState : Except WorldState WorldState → WorldState
  | .error s => s
  | .ok s => s

theorem get_diff_aiResults (s : WorldState) :
    (get_diff s).2.aiResults = s.aiResults := by
  simp only [get_diff, runCommandS_eq]
  repeat' split
  all_goals simp

theorem stage_phase_log_emptyMsg (inter : Bool) (s : WorldState) :
    (Msg.emptyCommitMessage ∈ (exState (stage_phase inter s)).log ↔
      Msg.emptyCommitMessage ∈ s.log) := by
  cases inter <;>
    · simp only [stage_phase, stage_add, get_git_status, runCommandS_eq,
        popInput_eq, emit, Bool.false_eq_true, if_false, if_true]
      repeat' split
      all_goals simp [exState]

/-- Non-interactively the acquired message is always truthy (line 456's
fallback guarantees it). -/
theorem acquire_noninter_truthy (cfg : Config) (fuel : Nat) (s : WorldState) :
    truthy (acquire_message cfg false fuel s).1 = true := by
  simp only [acquire_message, Bool.false_eq_true, if_false]
  rcases h : (if use_ai cfg then
      match get_diff s with
      | (diff, s) => generate_commit_message cfg diff s
    else (none, s)) with ⟨cm, s2⟩
  by_cases ht : truthy cm = true
  · simp [h, ht]
  · simp only [h]
    rw [if_neg (by simpa using ht)]
    decide

theorem acquire_noninter_log_emptyMsg (cfg : Config) (fuel : Nat)
    (s : WorldState) :
    (Msg.emptyCommitMessage ∈ (acquire_message cfg false fuel s).2.log ↔
      Msg.emptyCommitMessage ∈ s.log) := by
  simp only [acquire_message, get_diff, generate_commit_message, popAI_eq,
    runCommandS_eq, emit, Bool.false_eq_true, if_false]
  repeat' split
  all_goals simp

theorem commit_and_after_log_emptyMsg (inter : Bool) (msg : String)
    (s : WorldState) :
    (Msg.emptyCommitMessage ∈ (commit_and_after inter msg s).2.log ↔
      Msg.emptyCommitMessage ∈ s.log) := by
  simp only [commit_and_after, runCommandS_eq, popInput_eq, emit]
  repeat' split
  all_goals simp

/-- The commit command itself is always executed by `commit_and_after` (its
outcome decides the rest). -/
theorem commit_and_after_runs_commit (inter : Bool) (msg : String)
    (s : WorldState) :
    ["git", "commit", "-m", msg] ∈ (commit_and_after inter msg s).2.trace := by
  simp only [commit_and_after, runCommandS_eq, popInput_eq, emit]
  repeat' split
  all_goals simp

/-- Non-interactively, a failing (or skipped) generator yields the literal
default message (lines 452-457). -/
theorem acquire_noninter_auto (cfg : Config) (fuel : Nat) (s : WorldState)
    (h : s.aiResults.headD none = none) :
    (acquire_message cfg false fuel s).1 = some "Auto commit" := by
  simp only [acquire_message, Bool.false_eq_true, if_false]
  by_cases hu : use_ai cfg = true
  · simp only [hu, if_true]
    rcases hd : get_diff s with ⟨d, s2⟩
    have ha2 : s2.aiResults = s.aiResults := by
      have hx := get_diff_aiResults s
      rw [hd] at hx
      exact hx
    rcases hg : generate_commit_message cfg d s2 with ⟨gm, s3⟩
    have hgm : gm = none := by
      have hh := generate_none_of_head cfg d s2 (by rw [ha2]; exact h)
      rw [hg] at hh
      exact hh
    subst hgm
    simp [hd, hg, truthy]
  · simp [hu, truthy]

theorem generate_trace (cfg : Config) (diff : String) (s : WorldState) :
    (generate_commit_message cfg diff s).2.trace = s.trace := by
  simp only [generate_commit_message, popAI_eq, emit]
  repeat' split
  all_goals simp

/-- The regeneration loop consults only the user and the backend: it executes
no command. -/
theorem regen_loop_trace (cfg : Config) (diff : String) :
    ∀ fuel s, ((regen_loop cfg diff fuel s).2).trace = s.trace := by
  intro fuel
  induction fuel with
  | zero => intro s; rfl
  | succ n ih =>
    intro s
    simp only [regen_loop]
    rcases hg : generate_commit_message cfg diff
        (emit (Msg.generating (cfg.provider.getD "")) s) with ⟨gm, s1⟩
    have h1 : s1.trace = s.trace := by
      have hx := generate_trace cfg diff
        (emit (Msg.generating (cfg.provider.getD "")) s)
      rw [hg] at hx
      exact hx
    rcases gm with _ | msg
    · simp [popInput_eq, emit, h1]
    · simp only [popInput_eq, emit]
      repeat' split
      all_goals simp [h1, ih]

theorem get_diff_trace_commit (s : WorldState) (m : String) :
    (["git", "commit", "-m", m] ∈ (get_diff s).2.trace ↔
      ["git", "commit", "-m", m] ∈ s.trace) := by
  simp only [get_diff, runCommandS_eq]
  repeat' split
  all_goals simp

theorem stage_phase_trace_commit (inter : Bool) (s : WorldState) (m : String) :
    (["git", "commit", "-m", m] ∈ (exState (stage_phase inter s)).trace ↔
      ["git", "commit", "-m", m] ∈ s.trace) := by
  cases inter <;>
    · simp only [stage_phase, stage_add, get_git_status, runCommandS_eq,
        popInput_eq, emit, Bool.false_eq_true, if_false, if_true]
      repeat' split
      all_goals simp [exState]

/-- Message acquisition only ever runs diff queries: it adds no commit
command to the trace. -/
theorem acquire_trace_commit (cfg : Config) (inter : Bool) (fuel : Nat)
    (s : WorldState) (m : String) :
    (["git", "commit", "-m", m] ∈ (acquire_message cfg inter fuel s).2.trace ↔
      ["git", "commit", "-m", m] ∈ s.trace) := by
  cases inter
  · simp only [acquire_message, Bool.false_eq_true, if_false]
    by_cases hu : use_ai cfg = true
    · simp only [hu, if_true]
      rcases hd : get_diff s with ⟨d, s3⟩
      rcases hg : generate_commit_message cfg d s3 with ⟨gm, s4⟩
      have hx := generate_trace cfg d s3
      rw [hg] at hx
      simp only at hx
      have hy := get_diff_trace_commit s m
      rw [hd] at hy
      simp only at hy
      simp [hd, hg, hx, hy]
    · simp [hu]
  · simp only [acquire_message, if_true, manual_if_empty, popInput_eq,
      get_diff, runCommandS_eq, emit]
    repeat' split
    all_goals simp [regen_loop_trace]

/-- The only commit command `commit_and_after` can add is the one with its
own message. -/
theorem commit_and_after_trace_commit (inter : Bool) (msg : String)
    (s : WorldState) (m : String) :
    (["git", "commit", "-m", m] ∈ (commit_and_after inter msg s).2.trace ↔
      (["git", "commit", "-m", m] ∈ s.trace ∨ m = msg)) := by
  simp only [commit_and_after, runCommandS_eq, popInput_eq, emit]
  repeat' split
  all_goals simp

theorem truthy_getD (cm : Option String) (h : truthy cm = true) :
    cm.getD "" ≠ "" := by
  rcases cm with _ | x
  · simp [truthy] at h
  · simp only [truthy] at h
    simpa using h

/-! ### Claim theorems -/

/-- C1, counterexample: the claim says every force push requires the typed
token `FORCE`.  But in the nested fallback after a failed rebase (lines
338-345), typing `3` at the fallback prompt executes `git push --force`
directly: here the resolver runs with user inputs `["1", "3"]`, neither of
which is `FORCE`, and the force command is executed. -/
theorem C1_counterexample :
    (["git", "push", "--force", "origin", "main"] ∈
      (push_with_hybrid_resolver true "main"
        ⟨[LaunchResult.ok 1 "" "rejected!", LaunchResult.ok 1 "" "CONFLICT",
          LaunchResult.ok 0 "" ""], ["1", "3"], [], [], []⟩).2.trace) ∧
    "FORCE" ∉ (["1", "3"] : List String) := by decide

/-- C4, counterexample: with capture disabled, a launch failure still reports
the failure description in stderr, so the claim's clause "with capture
disabled both returned output strings are empty" fails. -/
theorem C4_counterexample :
    run_command false (LaunchResult.exn "boom") = (false, "", "boom") ∧
    (run_command false (LaunchResult.exn "boom")).2.2 ≠ "" := by decide

/-- C4 (amended): `run_command` is a total function of the launch outcome
(never raises); any launch failure yields `(false, "", description)` in both
capture modes; when the child launches, success holds exactly when its exit
code is 0; and with capture disabled, whenever the child launches, both
returned output strings are empty. -/
theorem C4_run_command :
    (∀ capture e, run_command capture (LaunchResult.exn e) = (false, "", e)) ∧
    (∀ capture code out err,
      ((run_command capture (LaunchResult.ok code out err)).1 = true ↔ code = 0)) ∧
    (∀ code out err,
      (run_command false (LaunchResult.ok code out err)).2.1 = "" ∧
      (run_command false (LaunchResult.ok code out err)).2.2 = "") := by
  refine ⟨fun capture e => rfl, fun capture code out err => ?_, fun code out err => ?_⟩
  · cases capture <;> simp [run_command]
  · simp [run_command]

/-- C9: `get_current_branch` returns the (stripped) stdout of
`git branch --show-current` when that query succeeds, and the literal
`"main"` whenever it fails (nonzero exit or launch failure). -/
theorem C9_current_branch (r : LaunchResult) (rest : List LaunchResult)
    (inputs : List String) (ai : List (Option String))
    (t0 : List (List String)) (l0 : List Msg) :
    ((run_command true r).1 = true →
      (get_current_branch ⟨r :: rest, inputs, ai, t0, l0⟩).1 =
        (run_command true r).2.1) ∧
    ((run_command true r).1 = false →
      (get_current_branch ⟨r :: rest, inputs, ai, t0, l0⟩).1 = "main") := by
  rcases h : run_command true r with ⟨ok, out, err⟩
  constructor
  · intro hok
    simp only [h] at hok
    simp only [get_current_branch, runCommandS, h, hok]
    rfl
  · intro hok
    simp only [h] at hok
    simp only [get_current_branch, runCommandS, h, hok]
    rfl

/-- C9, witness: a successful query returns the reported (stripped) branch
name; a failed launch returns `"main"`. -/
theorem C9_witness :
    (get_current_branch
      ⟨[LaunchResult.ok 0 " dev \n" ""], [], [], [], []⟩).1 = "dev" ∧
    (get_current_branch ⟨[LaunchResult.exn "boom"], [], [], [], []⟩).1 = "main" := by
  constructor
  · exact ((C9_current_branch (LaunchResult.ok 0 " dev \n" "") [] [] [] []
      []).1 (by decide)).trans (by decide)
  · exact (C9_current_branch (LaunchResult.exn "boom") [] [] [] [] []).2
      (by decide)

/-- The cleaned candidate entries of the branch listing, in the spec's terms
(spec §4.2): each line with the current-branch marker and the
`remotes/origin/` prefix stripped, with empty and `HEAD`-prefixed entries
dropped, in listing order and before de-duplication. -/
def branch_candidates (output : String) : List String :=
  ((split_lines output).map parse_branch_line).filter
    (fun b => decide (b ≠ "" ∧ starts_with b "HEAD" = false))

theorem parse_branches_eq (out : String) :
    parse_branches out = dedup_first (branch_candidates out) :=
  congrArg dedup_first (filterMap_guard_eq parse_branch_line
    (fun b => b ≠ "" ∧ starts_with b "HEAD" = false) (split_lines out))

/-- C8: `get_branches` returns, on success, exactly the de-duplication
(first-seen order preserved) of the cleaned listing entries — marker and
remote prefix stripped, empty and `HEAD`-prefixed entries excluded — and the
empty list when the underlying command fails (nonzero exit or launch
failure).  De-duplication is expressed by: the result equals
`dedup_first branch_candidates`, has no duplicates, has the same members as
the candidate list, and is a sublist of it (so first-seen order is kept). -/
theorem C8_get_branches :
    (∀ out err rest inputs ai t0 l0,
      (get_branches ⟨LaunchResult.ok 0 out err :: rest, inputs, ai, t0, l0⟩).1 =
        parse_branches (strip out)) ∧
    (∀ out err rest inputs ai t0 l0,
      (get_branches ⟨LaunchResult.ok 1 out err :: rest, inputs, ai, t0, l0⟩).1 =
        []) ∧
    (∀ e rest inputs ai t0 l0,
      (get_branches ⟨LaunchResult.exn e :: rest, inputs, ai, t0, l0⟩).1 = []) ∧
    (∀ out, parse_branches out = dedup_first (branch_candidates out)) ∧
    (∀ out, (parse_branches out).Nodup) ∧
    (∀ out b, b ∈ parse_branches out ↔ b ∈ branch_candidates out) ∧
    (∀ out, (parse_branches out).Sublist (branch_candidates out)) ∧
    (∀ out b, b ∈ parse_branches out →
      b ≠ "" ∧ starts_with b "HEAD" = false) := by
  refine ⟨fun out err rest inputs ai t0 l0 => rfl,
    fun out err rest inputs ai t0 l0 => rfl,
    fun e rest inputs ai t0 l0 => rfl,
    parse_branches_eq,
    fun out => by rw [parse_branches_eq]; exact dedup_first_nodup _,
    fun out b => by rw [parse_branches_eq]; exact mem_dedup_first _ b,
    fun out => by rw [parse_branches_eq]; exact dedup_first_sublist _,
    fun out b hb => ?_⟩
  have hb' : b ∈ branch_candidates out := by
    rw [parse_branches_eq] at hb
    exact (mem_dedup_first _ b).1 hb
  exact of_decide_eq_true (List.mem_filter.mp hb').2

/-- C8, witness: `dev` survives parsing of a concrete listing (the theorem's
final clause applied at a concrete input). -/
theorem C8_witness : "dev" ≠ "" ∧ starts_with "dev" "HEAD" = false :=
  C8_get_branches.2.2.2.2.2.2.2
    "* main\n  dev\n  remotes/origin/HEAD -> origin/main\n  dev" "dev"
    (by decide)

/-- C2: when the resolver runs non-interactively and the initial push fails
with a rejection marker in stderr, it performs exactly one automatic
`git pull --rebase origin <branch>`; only if that succeeds does it re-push
exactly once (and the resolver's result is that push's result); if the rebase
fails the resolver stops with failure; in both cases no user input is
consumed and nothing further is attempted (the trace is exactly as listed). -/
theorem C2_noninteractive (branch : String) (r1 r2 r3 : LaunchResult)
    (rest : List LaunchResult) (inputs : List String)
    (ai : List (Option String)) (t0 : List (List String)) (l0 : List Msg)
    (hfail : (run_command true r1).1 = false)
    (hrej : is_rejection (run_command true r1).2.2 = true) :
    (push_with_hybrid_resolver false branch
        ⟨r1 :: r2 :: r3 :: rest, inputs, ai, t0, l0⟩).2.inputs = inputs ∧
    ((run_command true r2).1 = true →
      (push_with_hybrid_resolver false branch
          ⟨r1 :: r2 :: r3 :: rest, inputs, ai, t0, l0⟩).2.trace =
        t0 ++ [["git", "push", "origin", branch],
          ["git", "pull", "--rebase", "origin", branch],
          ["git", "push", "origin", branch]] ∧
      (push_with_hybrid_resolver false branch
          ⟨r1 :: r2 :: r3 :: rest, inputs, ai, t0, l0⟩).1 =
        (run_command true r3).1) ∧
    ((run_command true r2).1 = false →
      (push_with_hybrid_resolver false branch
          ⟨r1 :: r2 :: r3 :: rest, inputs, ai, t0, l0⟩).2.trace =
        t0 ++ [["git", "push", "origin", branch],
          ["git", "pull", "--rebase", "origin", branch]] ∧
      (push_with_hybrid_resolver false branch
          ⟨r1 :: r2 :: r3 :: rest, inputs, ai, t0, l0⟩).1 = false) := by
  rcases h1 : run_command true r1 with ⟨ok1, sout1, serr1⟩
  rw [h1] at hfail hrej
  simp only at hfail hrej
  subst hfail
  rcases h2 : run_command true r2 with ⟨ok2, sout2, serr2⟩
  rcases h3 : run_command true r3 with ⟨ok3, sout3, serr3⟩
  simp only [push_with_hybrid_resolver, runCommandS, resolve_divergence, emit,
    h1, h2, h3, hrej, Bool.false_eq_true, if_false, if_true, List.append_assoc]
  cases ok2 <;> cases ok3 <;> simp [List.append_assoc]

/-- C2, witness: a concrete rejected push in non-interactive mode triggers
exactly the rebase and one re-push, consuming no input. -/
theorem C2_witness :
    (push_with_hybrid_resolver false "dev"
      ⟨[LaunchResult.ok 1 "" "! [rejected]", LaunchResult.ok 0 "" "",
        LaunchResult.ok 0 "" ""], ["x"], [], [], []⟩).2.inputs = ["x"] ∧
    (push_with_hybrid_resolver false "dev"
      ⟨[LaunchResult.ok 1 "" "! [rejected]", LaunchResult.ok 0 "" "",
        LaunchResult.ok 0 "" ""], ["x"], [], [], []⟩).2.trace =
      [["git", "push", "origin", "dev"],
       ["git", "pull", "--rebase", "origin", "dev"],
       ["git", "push", "origin", "dev"]] := by
  have h := C2_noninteractive "dev" (LaunchResult.ok 1 "" "! [rejected]")
    (LaunchResult.ok 0 "" "") (LaunchResult.ok 0 "" "") [] ["x"] [] [] []
    (by decide) (by decide)
  exact ⟨h.1, by simpa using (h.2.1 (by decide)).1⟩

/-- C3: if the initial push fails without any rejection marker, the resolver
reports `Push failed`, returns unsuccessfully, attempts no further command
and consumes no input (the trace is exactly the initial push); and the
divergence-resolution branch (observable by its unique `pushRejected`
warning) is entered exactly when a marker is present. -/
theorem C3_rejection_gate (inter : Bool) (branch : String) (r1 : LaunchResult)
    (rest : List LaunchResult) (inputs : List String)
    (ai : List (Option String)) (t0 : List (List String)) (l0 : List Msg)
    (hfail : (run_command true r1).1 = false)
    (hlog : Msg.pushRejected ∉ l0) :
    (is_rejection (run_command true r1).2.2 = false →
      (push_with_hybrid_resolver inter branch
          ⟨r1 :: rest, inputs, ai, t0, l0⟩).1 = false ∧
      (push_with_hybrid_resolver inter branch
          ⟨r1 :: rest, inputs, ai, t0, l0⟩).2.trace =
        t0 ++ [["git", "push", "origin", branch]] ∧
      (push_with_hybrid_resolver inter branch
          ⟨r1 :: rest, inputs, ai, t0, l0⟩).2.inputs = inputs ∧
      (push_with_hybrid_resolver inter branch
          ⟨r1 :: rest, inputs, ai, t0, l0⟩).2.log =
        l0 ++ [Msg.attemptingPush branch,
          Msg.pushFailed (run_command true r1).2.2]) ∧
    (Msg.pushRejected ∈ (push_with_hybrid_resolver inter branch
        ⟨r1 :: rest, inputs, ai, t0, l0⟩).2.log ↔
      is_rejection (run_command true r1).2.2 = true) := by
  rcases h1 : run_command true r1 with ⟨ok1, sout1, serr1⟩
  rw [h1] at hfail
  simp only at hfail
  subst hfail
  constructor
  · intro hno
    simp only at hno
    simp [push_with_hybrid_resolver, runCommandS, emit, h1, hno]
  · simp only
    by_cases hm : is_rejection serr1 = true
    · simp only [push_with_hybrid_resolver, runCommandS, emit, h1, hm,
        Bool.false_eq_true, if_false, if_true]
      rw [resolve_divergence_pushRejected]
      simp [hm]
    · simp only [Bool.not_eq_true] at hm
      simp [push_with_hybrid_resolver, runCommandS, emit, h1, hm, hlog]

/-- C3, witness: a failed push with unrelated stderr stops with only the
initial push attempted; a rejected push enters the divergence branch. -/
theorem C3_witness :
    (push_with_hybrid_resolver true "main"
      ⟨[LaunchResult.exn "weird failure"], [], [], [], []⟩).1 = false ∧
    (push_with_hybrid_resolver true "main"
      ⟨[LaunchResult.exn "weird failure"], [], [], [], []⟩).2.trace =
      [["git", "push", "origin", "main"]] ∧
    Msg.pushRejected ∈ (push_with_hybrid_resolver false "main"
      ⟨[LaunchResult.ok 1 "" "rejected"], [], [], [], []⟩).2.log := by
  refine ⟨?_, ?_, ?_⟩
  · exact ((C3_rejection_gate true "main" (LaunchResult.exn "weird failure")
      [] [] [] [] [] (by decide) (by decide)).1 (by decide)).1
  · exact (((C3_rejection_gate true "main" (LaunchResult.exn "weird failure")
      [] [] [] [] [] (by decide) (by decide)).1 (by decide)).2.1).trans
      (by decide)
  · exact (C3_rejection_gate false "main" (LaunchResult.ok 1 "" "rejected")
      [] [] [] [] [] (by decide) (by decide)).2.mpr (by decide)

/-- C1 (amended): on the two confirmation-guarded paths — the resolver's
direct force-push strategy (choice `3`, lines 365-377) and the
orchestrator-level fallback (`f`, lines 560-569) — the force command executes
if and only if the typed confirmation strips to exactly `FORCE`, and anything
else cancels with no force command executed; the nested fallback after a
failed rebase (lines 338-345) is exempt: it executes the force push without a
typed confirmation (see the counterexample). -/
theorem C1_amended_force_gate (branch confirm : String)
    (r1 r2 : LaunchResult) (rest : List LaunchResult) (restIn : List String)
    (ai : List (Option String)) (t0 : List (List String)) (l0 : List Msg)
    (hfail : (run_command true r1).1 = false)
    (hrej : is_rejection (run_command true r1).2.2 = true)
    (hT : ["git", "push", "--force", "origin", branch] ∉ t0) :
    (["git", "push", "--force", "origin", branch] ∈
        (push_with_hybrid_resolver true branch
          ⟨r1 :: r2 :: rest, "3" :: confirm :: restIn, ai, t0, l0⟩).2.trace ↔
      strip confirm = "FORCE") ∧
    (strip confirm ≠ "FORCE" →
      (push_with_hybrid_resolver true branch
          ⟨r1 :: r2 :: rest, "3" :: confirm :: restIn, ai, t0, l0⟩).1 = false ∧
      (push_with_hybrid_resolver true branch
          ⟨r1 :: r2 :: rest, "3" :: confirm :: restIn, ai, t0, l0⟩).2.trace =
        t0 ++ [["git", "push", "origin", branch]]) ∧
    (["git", "push", "--force", "origin", branch] ∈
        (run_push_fallback branch
          ⟨r1 :: rest, "f" :: confirm :: restIn, ai, t0, l0⟩).trace ↔
      strip confirm = "FORCE") := by
  rcases h1 : run_command true r1 with ⟨ok1, sout1, serr1⟩
  rw [h1] at hfail hrej
  simp only at hfail hrej
  subst hfail
  rcases h2 : run_command true r2 with ⟨ok2, sout2, serr2⟩
  rcases hf : run_command false r1 with ⟨okf, soutf, serrf⟩
  have hs3 : strip "3" = "3" := rfl
  have hsf : lower (strip "f") = "f" := rfl
  by_cases hc : strip confirm = "FORCE"
  · refine ⟨?_, fun hne => absurd hc hne, ?_⟩
    · simp only [push_with_hybrid_resolver, resolve_divergence, runCommandS,
        popInput, emit, h1, h2, hrej, hc, hs3, Bool.false_eq_true, if_false]
      cases ok2 <;> simp [hrej]
    · simp only [run_push_fallback, runCommandS, popInput, emit, hf, hc, hsf]
      cases okf <;> simp [hrej]
  · refine ⟨?_, fun _ => ?_, ?_⟩
    · simp only [push_with_hybrid_resolver, resolve_divergence, runCommandS,
        popInput, emit, h1, h2, hrej, hc, hs3, Bool.false_eq_true, if_false]
      simp [hrej, hc, hT]
    · simp only [push_with_hybrid_resolver, resolve_divergence, runCommandS,
        popInput, emit, h1, h2, hrej, hc, hs3, Bool.false_eq_true, if_false]
      simp [hrej, hc]
    · simp only [run_push_fallback, runCommandS, popInput, emit, hf, hc, hsf]
      simp [hrej, hc, hT]

/-- C1, witness: typing `FORCE` at the direct force-push strategy executes
the force command; typing anything else leaves it unexecuted. -/
theorem C1_witness :
    (["git", "push", "--force", "origin", "main"] ∈
      (push_with_hybrid_resolver true "main"
        ⟨[LaunchResult.ok 1 "" "rejected", LaunchResult.ok 0 "" ""],
          ["3", "FORCE"], [], [], []⟩).2.trace) ∧
    (["git", "push", "--force", "origin", "main"] ∉
      (push_with_hybrid_resolver true "main"
        ⟨[LaunchResult.ok 1 "" "rejected", LaunchResult.ok 0 "" ""],
          ["3", "no"], [], [], []⟩).2.trace) := by
  constructor
  · exact (C1_amended_force_gate "main" "FORCE" (LaunchResult.ok 1 "" "rejected")
      (LaunchResult.ok 0 "" "") [] [] [] [] [] (by decide) (by decide)
      (by decide)).1.mpr (by decide)
  · intro hmem
    exact absurd ((C1_amended_force_gate "main" "no"
      (LaunchResult.ok 1 "" "rejected") (LaunchResult.ok 0 "" "") [] [] [] [] []
      (by decide) (by decide) (by decide)).1.mp hmem) (by decide)

/-- C7: every failure mode of the commit-message generator yields `none`
rather than an exception — missing API key, missing provider, an unknown
provider name (here `cohere`, whatever the key), and a backend/network
failure (oracle head `none`, whatever the configuration) — and the caller
treats `none` non-fatally: interactively it falls back to manual entry (the
typed message is committed and the flow continues), non-interactively it
falls back to the default message. -/
theorem C7_generator_failures :
    (∀ p diff s, (generate_commit_message ⟨none, p⟩ diff s).1 = none) ∧
    (∀ k diff s, (generate_commit_message ⟨k, none⟩ diff s).1 = none) ∧
    (∀ key diff s,
      (generate_commit_message ⟨some key, some "cohere"⟩ diff s).1 = none) ∧
    (∀ cfg diff res inp rest tr lg,
      (generate_commit_message cfg diff ⟨res, inp, none :: rest, tr, lg⟩).1 =
        none) ∧
    (commit_flow ⟨some "k", some "gemini"⟩ true 5
        ⟨[LaunchResult.ok 0 "M f" "", LaunchResult.ok 0 "" "",
          LaunchResult.ok 0 "diffD" "", LaunchResult.ok 0 "" ""],
          [".", "y", "fix stuff", "n"], [none], [], []⟩).1 = "continue" ∧
    ["git", "commit", "-m", "fix stuff"] ∈
      (commit_flow ⟨some "k", some "gemini"⟩ true 5
        ⟨[LaunchResult.ok 0 "M f" "", LaunchResult.ok 0 "" "",
          LaunchResult.ok 0 "diffD" "", LaunchResult.ok 0 "" ""],
          [".", "y", "fix stuff", "n"], [none], [], []⟩).2.trace ∧
    (commit_flow ⟨some "k", some "gemini"⟩ false 5
        ⟨[LaunchResult.ok 0 "M f" "", LaunchResult.ok 0 "" "",
          LaunchResult.ok 0 "diffD" "", LaunchResult.ok 0 "" ""],
          [], [none], [], []⟩).1 = "continue" ∧
    ["git", "commit", "-m", "Auto commit"] ∈
      (commit_flow ⟨some "k", some "gemini"⟩ false 5
        ⟨[LaunchResult.ok 0 "M f" "", LaunchResult.ok 0 "" "",
          LaunchResult.ok 0 "diffD" "", LaunchResult.ok 0 "" ""],
          [], [none], [], []⟩).2.trace := by
  refine ⟨fun p diff s => by simp [generate_commit_message, truthy],
    fun k diff s => by simp [generate_commit_message, truthy],
    fun key diff s => ?_, fun cfg diff res inp rest tr lg => ?_,
    by decide, by decide, by decide, by decide⟩
  · by_cases hk : key = ""
    · simp [generate_commit_message, truthy, hk]
    · simp [generate_commit_message, truthy, hk, known_provider]
  · exact generate_none_of_head cfg diff ⟨res, inp, none :: rest, tr, lg⟩ rfl

/-- C10: in non-interactive mode the final commit message is never empty:
the "Commit message cannot be empty!" abort branch is unreachable (its
message never appears in the log, for every oracle and configuration), and
when staging succeeds and the generator is unconfigured or fails (backend
outcome `none`), the commit is attempted with the literal message
`Auto commit`. -/
theorem C10_noninteractive_default :
    (∀ cfg fuel res inp ai,
      Msg.emptyCommitMessage ∉
        (commit_flow cfg false fuel ⟨res, inp, ai, [], []⟩).2.log) ∧
    (∀ cfg fuel rest inp ai,
      ["git", "commit", "-m", "Auto commit"] ∈
        (commit_flow cfg false fuel
          ⟨LaunchResult.ok 0 "M f" "" :: LaunchResult.ok 0 "" "" :: rest,
            inp, none :: ai, [], []⟩).2.trace) := by
  constructor
  · intro cfg fuel res inp ai
    rcases hs : stage_phase false ⟨res, inp, ai, [], []⟩ with s1 | s1
    · have h1 := stage_phase_log_emptyMsg false ⟨res, inp, ai, [], []⟩
      rw [hs] at h1
      simp only [commit_flow, hs]
      simpa [exState] using h1
    · rcases ha : acquire_message cfg false fuel s1 with ⟨cm, s2⟩
      have htr : truthy cm = true := by
        have hx := acquire_noninter_truthy cfg fuel s1
        rw [ha] at hx
        exact hx
      have h1 := stage_phase_log_emptyMsg false ⟨res, inp, ai, [], []⟩
      rw [hs] at h1
      simp only [exState] at h1
      simp only [List.mem_nil_iff] at h1
      have h2 := acquire_noninter_log_emptyMsg cfg fuel s1
      rw [ha] at h2
      simp only [commit_flow, hs, ha, htr, if_true]
      rw [commit_and_after_log_emptyMsg]
      simp only at h2
      simp [h2, h1]
  · intro cfg fuel rest inp ai
    have hstage : stage_phase false
        ⟨LaunchResult.ok 0 "M f" "" :: LaunchResult.ok 0 "" "" :: rest,
          inp, none :: ai, [], []⟩ =
        .ok ⟨rest, inp, none :: ai,
          [["git", "status", "--short"], ["git", "add", "."]],
          [Msg.changesDetected "M f", Msg.added "."]⟩ := rfl
    simp only [commit_flow, hstage]
    rcases ha : acquire_message cfg false fuel
        ⟨rest, inp, none :: ai,
          [["git", "status", "--short"], ["git", "add", "."]],
          [Msg.changesDetected "M f", Msg.added "."]⟩ with ⟨cm, s2⟩
    have hcm : cm = some "Auto commit" := by
      have hx := acquire_noninter_auto cfg fuel
        ⟨rest, inp, none :: ai,
          [["git", "status", "--short"], ["git", "add", "."]],
          [Msg.changesDetected "M f", Msg.added "."]⟩ rfl
      rw [ha] at hx
      exact hx
    subst hcm
    have ht : truthy (some "Auto commit") = true := by decide
    simp only [ha, ht, if_true, Option.getD_some]
    exact commit_and_after_runs_commit false "Auto commit" s2

/-- C5: Commit Flow never runs `git commit` with an empty message — every
commit command in the trace of a full run carries a non-empty message — and a
run that does not end in `Abort` did execute a commit with a non-empty
message (so whenever the finally-acquired message is empty the flow aborts
without committing). -/
theorem C5_no_empty_commit (cfg : Config) (inter : Bool) (fuel : Nat)
    (res : List LaunchResult) (inp : List String) (ai : List (Option String)) :
    (∀ m, ["git", "commit", "-m", m] ∈
        (commit_flow cfg inter fuel ⟨res, inp, ai, [], []⟩).2.trace → m ≠ "") ∧
    ((commit_flow cfg inter fuel ⟨res, inp, ai, [], []⟩).1 ≠ "abort" →
      ∃ m, m ≠ "" ∧ ["git", "commit", "-m", m] ∈
        (commit_flow cfg inter fuel ⟨res, inp, ai, [], []⟩).2.trace) := by
  rcases hs : stage_phase inter ⟨res, inp, ai, [], []⟩ with s1 | s1
  · have h1 := fun m => stage_phase_trace_commit inter ⟨res, inp, ai, [], []⟩ m
    rw [hs] at h1
    simp only [exState] at h1
    constructor
    · intro m hm
      simp only [commit_flow, hs] at hm
      have hx := (h1 m).mp hm
      simp at hx
    · intro hres
      simp [commit_flow, hs] at hres
  · rcases ha : acquire_message cfg inter fuel s1 with ⟨cm, s2⟩
    have h1 := fun m => stage_phase_trace_commit inter ⟨res, inp, ai, [], []⟩ m
    rw [hs] at h1
    simp only [exState] at h1
    have h2 : ∀ m, (["git", "commit", "-m", m] ∈ s2.trace ↔
        ["git", "commit", "-m", m] ∈ s1.trace) := by
      intro m
      have hx := acquire_trace_commit cfg inter fuel s1 m
      rw [ha] at hx
      simpa using hx
    by_cases ht : truthy cm = true
    · have hmsg := truthy_getD cm ht
      constructor
      · intro m hm
        simp only [commit_flow, hs, ha, ht, if_true] at hm
        rcases (commit_and_after_trace_commit inter (cm.getD "") s2 m).mp hm
          with hmem | hEq
        · have hy := (h1 m).mp ((h2 m).mp hmem)
          simp at hy
        · rw [hEq]
          exact hmsg
      · intro hres
        refine ⟨cm.getD "", hmsg, ?_⟩
        simp only [commit_flow, hs, ha, ht, if_true]
        exact commit_and_after_runs_commit inter (cm.getD "") s2
    · constructor
      · intro m hm
        simp only [commit_flow, hs, ha, ht, if_false, emit,
          Bool.not_eq_true] at hm
        have hy := (h1 m).mp ((h2 m).mp hm)
        simp at hy
      · intro hres
        simp [commit_flow, hs, ha, ht] at hres

/-- C5, witness: a concrete non-aborting run committed with the (non-empty)
message it acquired. -/
theorem C5_witness :
    ("Auto commit" : String) ≠ "" ∧
    ∃ m, m ≠ "" ∧ ["git", "commit", "-m", m] ∈
      (commit_flow ⟨none, none⟩ false 5
        ⟨[LaunchResult.ok 0 "M f" "", LaunchResult.ok 0 "" "",
          LaunchResult.ok 0 "" ""], [], [], [], []⟩).2.trace := by
  constructor
  · exact (C5_no_empty_commit ⟨none, none⟩ false 5
      [LaunchResult.ok 0 "M f" "", LaunchResult.ok 0 "" "",
        LaunchResult.ok 0 "" ""] [] []).1 "Auto commit" (by decide)
  · exact (C5_no_empty_commit ⟨none, none⟩ false 5
      [LaunchResult.ok 0 "M f" "", LaunchResult.ok 0 "" "",
        LaunchResult.ok 0 "" ""] [] []).2 (by decide)

/-- C6: after a successful interactive commit, undo (`y`, soft reset
succeeds) followed by redo `y` yields `restart` and by anything else yields
`abort`, while declining undo yields `continue` (first two clauses, over all
oracles).  At the orchestrator level, in three full concrete runs: on `abort`
the run stops with no checkout, branch listing or push command after the
reset; on `restart` Commit Flow runs again from the staging step (a second
status/add/commit appears) before branch and push; on `continue` the run
proceeds to the branch listing and the push. -/
theorem C6_undo_redo_orchestration :
    (∀ msg undo redo r1 r2 restR restI ai t0 l0,
      (run_command true r1).1 = true →
      (run_command true r2).1 = true →
      ((lower (strip undo) = "y" →
        (commit_and_after true msg
          ⟨r1 :: r2 :: restR, undo :: redo :: restI, ai, t0, l0⟩).1 =
          (if lower (strip redo) = "y" then "restart" else "abort")) ∧
      (lower (strip undo) ≠ "y" →
        (commit_and_after true msg
          ⟨r1 :: r2 :: restR, undo :: redo :: restI, ai, t0, l0⟩).1 =
          "continue"))) ∧
    ((run_main ⟨none, none⟩ true 5 5
      ⟨[LaunchResult.ok 0 ".git" "", LaunchResult.ok 0 "url" "",
        LaunchResult.ok 0 "main" "", LaunchResult.ok 0 "M f" "",
        LaunchResult.ok 0 "" "", LaunchResult.ok 0 "" "",
        LaunchResult.ok 0 "" ""],
        [".", "n", "msg", "y", "n"], [], [], []⟩).trace =
      [["git", "rev-parse", "--git-dir"],
       ["git", "remote", "get-url", "origin"],
       ["git", "branch", "--show-current"],
       ["git", "status", "--short"],
       ["git", "add", "."],
       ["git", "commit", "-m", "msg"],
       ["git", "reset", "--soft", "HEAD~1"]] ∧
     Msg.abortedAfterUndo ∈ (run_main ⟨none, none⟩ true 5 5
      ⟨[LaunchResult.ok 0 ".git" "", LaunchResult.ok 0 "url" "",
        LaunchResult.ok 0 "main" "", LaunchResult.ok 0 "M f" "",
        LaunchResult.ok 0 "" "", LaunchResult.ok 0 "" "",
        LaunchResult.ok 0 "" ""],
        [".", "n", "msg", "y", "n"], [], [], []⟩).log) ∧
    (run_main ⟨none, none⟩ true 5 5
      ⟨[LaunchResult.ok 0 ".git" "", LaunchResult.ok 0 "url" "",
        LaunchResult.ok 0 "main" "", LaunchResult.ok 0 "M f" "",
        LaunchResult.ok 0 "" "", LaunchResult.ok 0 "" "",
        LaunchResult.ok 0 "" "", LaunchResult.ok 0 "M f" "",
        LaunchResult.ok 0 "" "", LaunchResult.ok 0 "" "",
        LaunchResult.ok 0 "* main" ""],
        [".", "n", "m1", "y", "y", ".", "n", "m2", "n", "", "n"],
        [], [], []⟩).trace =
      [["git", "rev-parse", "--git-dir"],
       ["git", "remote", "get-url", "origin"],
       ["git", "branch", "--show-current"],
       ["git", "status", "--short"],
       ["git", "add", "."],
       ["git", "commit", "-m", "m1"],
       ["git", "reset", "--soft", "HEAD~1"],
       ["git", "status", "--short"],
       ["git", "add", "."],
       ["git", "commit", "-m", "m2"],
       ["git", "branch", "-a"]] ∧
    (run_main ⟨none, none⟩ true 5 5
      ⟨[LaunchResult.ok 0 ".git" "", LaunchResult.ok 0 "url" "",
        LaunchResult.ok 0 "main" "", LaunchResult.ok 0 "M f" "",
        LaunchResult.ok 0 "" "", LaunchResult.ok 0 "" "",
        LaunchResult.ok 0 "* main" "", LaunchResult.ok 0 "" ""],
        [".", "n", "m3", "n", "", "y"], [], [], []⟩).trace =
      [["git", "rev-parse", "--git-dir"],
       ["git", "remote", "get-url", "origin"],
       ["git", "branch", "--show-current"],
       ["git", "status", "--short"],
       ["git", "add", "."],
       ["git", "commit", "-m", "m3"],
       ["git", "branch", "-a"],
       ["git", "push", "origin", "main"]] := by
  refine ⟨?_, ⟨by decide, by decide⟩, by decide, by decide⟩
  intro msg undo redo r1 r2 restR restI ai t0 l0 hcommit hreset
  rcases h1 : run_command true r1 with ⟨ok1, o1, e1⟩
  rw [h1] at hcommit
  simp only at hcommit
  subst hcommit
  rcases h2 : run_command true r2 with ⟨ok2, o2, e2⟩
  rw [h2] at hreset
  simp only at hreset
  subst hreset
  constructor
  · intro hu
    by_cases hr : lower (strip redo) = "y"
    · simp [commit_and_after, runCommandS, popInput, emit, h1, h2, hu, hr]
    · simp [commit_and_after, runCommandS, popInput, emit, h1, h2, hu, hr]
  · intro hu
    simp [commit_and_after, runCommandS, popInput, emit, h1, h2, hu]

/-- C6, witness: concrete undo/redo decisions produce `restart`, `abort` and
`continue` respectively. -/
theorem C6_witness :
    (commit_and_after true "m"
      ⟨[LaunchResult.ok 0 "" "", LaunchResult.ok 0 "" ""],
        ["y", "y"], [], [], []⟩).1 = "restart" ∧
    (commit_and_after true "m"
      ⟨[LaunchResult.ok 0 "" "", LaunchResult.ok 0 "" ""],
        ["y", "n"], [], [], []⟩).1 = "abort" ∧
    (commit_and_after true "m"
      ⟨[LaunchResult.ok 0 "" "", LaunchResult.ok 0 "" ""],
        ["n", "x"], [], [], []⟩).1 = "continue" := by
  refine ⟨?_, ?_, ?_⟩
  · exact ((C6_undo_redo_orchestration.1 "m" "y" "y"
      (LaunchResult.ok 0 "" "") (LaunchResult.ok 0 "" "") [] [] [] [] []
      (by decide) (by decide)).1 (by decide)).trans (by decide)
  · exact ((C6_undo_redo_orchestration.1 "m" "y" "n"
      (LaunchResult.ok 0 "" "") (LaunchResult.ok 0 "" "") [] [] [] [] []
      (by decide) (by decide)).1 (by decide)).trans (by decide)
  · exact (C6_undo_redo_orchestration.1 "m" "n" "x"
      (LaunchResult.ok 0 "" "") (LaunchResult.ok 0 "" "") [] [] [] [] []
      (by decide) (by decide)).2 (by decide)

/-- C4, witness: concrete launch outcomes — an exception becomes the failure
triple, and with capture off a successful launch returns empty strings. -/
theorem C4_witness :
    run_command true (LaunchResult.exn "missing exe") =
      (false, "", "missing exe") ∧
    (run_command false (LaunchResult.ok 0 "out" "err")).2.1 = "" ∧
    (run_command false (LaunchResult.ok 0 "out" "err")).2.2 = "" :=
  ⟨C4_run_command.1 true "missing exe",
    (C4_run_command.2.2 0 "out" "err").1, (C4_run_command.2.2 0 "out" "err").2⟩

/-- C7, witness: the generator applied at concrete unconfigured state yields
`none`. -/
theorem C7_witness :
    (generate_commit_message ⟨none, some "openai"⟩ "d"
      ⟨[], [], [], [], []⟩).1 = none :=
  C7_generator_failures.1 (some "openai") "d" ⟨[], [], [], [], []⟩

/-- C10, witness: a concrete non-interactive run never logs the empty-message
error and commits with the default message. -/
theorem C10_witness :
    Msg.emptyCommitMessage ∉
      (commit_flow ⟨none, none⟩ false 5
        ⟨[LaunchResult.ok 0 "M f" "", LaunchResult.ok 0 "" "",
          LaunchResult.ok 0 "" ""], [], [], [], []⟩).2.log ∧
    ["git", "commit", "-m", "Auto commit"] ∈
      (commit_flow ⟨none, none⟩ false 5
        ⟨[LaunchResult.ok 0 "M f" "", LaunchResult.ok 0 "" "",
          LaunchResult.ok 0 "" ""], [], [none], [], []⟩).2.trace :=
  ⟨C10_noninteractive_default.1 ⟨none, none⟩ 5
      [LaunchResult.ok 0 "M f" "", LaunchResult.ok 0 "" "",
        LaunchResult.ok 0 "" ""] [] [],
    C10_noninteractive_default.2 ⟨none, none⟩ 5 [LaunchResult.ok 0 "" ""]
      [] []⟩

end GitAuto
